import Mathlib

/-!
OSPRay: grid decomposition, sphere bricks, OBJ renderer and spp synchronisation.

A shallow embedding of

* `computeDivisor`, `computeGrid`, `makeLocalSpheres` and the display callback of `main`
  in `modules/mpi/tutorials/ospMPIDistributedTutorialSpheres.cpp`,
* `OBJRenderer::createRenderJob`, `createMaterial`, `createLight`
  in `ospray/render/obj/objrenderer.cpp`,

followed by the properties proved about them.

Conventions.  The C++ `int`s of the tutorial are world sizes, ranks, divisors and grid
dimensions: all are non-negative and every product formed is bounded by the world size
(`computeGrid_components_le`), so they are embedded as `Nat` without wrap-around.
`int upperBound = std::sqrt(x)` truncates the double square root of a non-negative `int`,
which is the integer square root `Nat.sqrt x`.  The `float` geometry of `makeLocalSpheres`
is embedded twice.  `brickSizeOf`, `brickLowerOf`, `brickUpperOf`, `distX`, `distY`, `distZ`
and `makeLocalSpheres` compute in exact rational arithmetic with `sphereRadius = 1/10`.
Their counterparts `F32.brickSizeOf`, ..., `F32.distX` round every operation to binary32
(round to nearest, ties to even, each operation rounded on its own), as the compiled code
does; for world sizes in the range of `int` all values met are zero or lie in the normal range
of binary32, so the exponent is left unbounded.
-/

namespace Ospray

/-! ## Data model -/

/-- The `vec3i` of ospcommon, restricted to the non-negative values the tutorial uses. -/
structure Vec3i where
  x : Nat
  y : Nat
  z : Nat
deriving DecidableEq, Repr

/-- The `vec3f` of ospcommon over exact rationals. -/
structure Vec3f where
  x : ℚ
  y : ℚ
  z : ℚ
deriving DecidableEq

/-- The statement `grid[axis] *= d` for `axis` in `0, 1, 2`. -/
def Vec3i.mulAxis (grid : Vec3i) (axis d : Nat) : Vec3i :=
  match axis with
  | 0 => { grid with x := grid.x * d }
  | 1 => { grid with y := grid.y * d }
  | _ => { grid with z := grid.z * d }

/-- Number of cells of a grid. -/
def Vec3i.cells (grid : Vec3i) : Nat := grid.x * grid.y * grid.z

/-- The constructor `vec3f(s)` with all three components equal. -/
def Vec3f.splat (s : ℚ) : Vec3f := ⟨s, s, s⟩

/-- The conversion `vec3f(v)` of an integer vector. -/
def Vec3f.ofVec3i (v : Vec3i) : Vec3f := ⟨v.x, v.y, v.z⟩

/-- Component-wise `a + b`. -/
def Vec3f.add (a b : Vec3f) : Vec3f := ⟨a.x + b.x, a.y + b.y, a.z + b.z⟩

/-- Component-wise `a - b`. -/
def Vec3f.sub (a b : Vec3f) : Vec3f := ⟨a.x - b.x, a.y - b.y, a.z - b.z⟩

/-- Component-wise `a * b`. -/
def Vec3f.mul (a b : Vec3f) : Vec3f := ⟨a.x * b.x, a.y * b.y, a.z * b.z⟩

/-- Component-wise `a / b`. -/
def Vec3f.div (a b : Vec3f) : Vec3f := ⟨a.x / b.x, a.y / b.y, a.z / b.z⟩

/-! ## `computeDivisor` and `computeGrid` -/

/-- The `for` loop of `computeDivisor`: `i` is the loop variable and the last argument counts
the values `i, i+1, ..., upperBound` still to be tried, so `0` is the exit `i > upperBound`
(`return false`) and `some i` is `divisor = i; return true`. -/
def computeDivisorLoop (x i : Nat) : Nat → Option Nat
  | 0 => none
  | k + 1 => if x % i = 0 then some i else computeDivisorLoop x (i + 1) k

/-- The function `bool computeDivisor(int x, int &divisor)`: `some d` stands for `true` with
`divisor = d`, `none` for `false`. -/
def computeDivisor (x : Nat) : Option Nat :=
  let upperBound := Nat.sqrt x
  computeDivisorLoop x 2 (upperBound + 1 - 2)

/-- The `while` loop of `computeGrid` on the state `(grid, axis, num)`, followed by the final
`if (num != 1)`.  The first argument bounds the number of iterations; `none` means the bound
was reached before the loop ended. -/
def computeGridLoop : Nat → Vec3i → Nat → Nat → Option Vec3i
  | 0, _, _, _ => none
  | fuel + 1, grid, axis, num =>
    match computeDivisor num with
    | some divisor =>
      computeGridLoop fuel (grid.mulAxis axis divisor) ((axis + 1) % 3) (num / divisor)
    | none => some (if num ≠ 1 then grid.mulAxis axis num else grid)

/-- The function `vec3i computeGrid(int num)`, run with `num + 1` iterations allowed. -/
def computeGrid (num : Nat) : Option Vec3i :=
  computeGridLoop (num + 1) ⟨1, 1, 1⟩ 0 num

/-! ## `makeLocalSpheres` -/

/-- The constant `sphereRadius = 0.1`. -/
def sphereRadius : ℚ := 1 / 10

/-- The brick coordinate `brickId` of `makeLocalSpheres`. -/
def brickIdOf (grid : Vec3i) (mpiRank : Nat) : Vec3i :=
  ⟨mpiRank % grid.x, (mpiRank / grid.x) % grid.y, mpiRank / (grid.x * grid.y)⟩

/-- The vector `brickSize = vec3f(2.0) / vec3f(grid)`. -/
def brickSizeOf (grid : Vec3i) : Vec3f :=
  (Vec3f.splat 2).div (Vec3f.ofVec3i grid)

/-- The vector `brickLower = brickSize * brickId - vec3f(1.f)`. -/
def brickLowerOf (grid brickId : Vec3i) : Vec3f :=
  ((brickSizeOf grid).mul (Vec3f.ofVec3i brickId)).sub (Vec3f.splat 1)

/-- The vector `brickUpper = brickSize * brickId - vec3f(1.f) + brickSize`. -/
def brickUpperOf (grid brickId : Vec3i) : Vec3f :=
  (((brickSizeOf grid).mul (Vec3f.ofVec3i brickId)).sub (Vec3f.splat 1)).add (brickSizeOf grid)

/-- The parameters `(a, b)` of a `std::uniform_real_distribution`. -/
structure UniformRealDistribution where
  a : ℚ
  b : ℚ
deriving DecidableEq

/-- The call `dist(rng)` of a `std::uniform_real_distribution` (C++ standard library): the
draw is `a + (b - a) * u` for the canonical variate `u` in `[0, 1)` taken from the generator. -/
def UniformRealDistribution.sample (d : UniformRealDistribution) (u : ℚ) : ℚ :=
  d.a + (d.b - d.a) * u

/-- The distributions `distX`, `distY`, `distZ`: per axis, the interval
`[brickLower + sphereRadius, brickUpper - sphereRadius]`. -/
def distX (grid brickId : Vec3i) : UniformRealDistribution :=
  ⟨(brickLowerOf grid brickId).x + sphereRadius, (brickUpperOf grid brickId).x - sphereRadius⟩

/-- See `distX`. -/
def distY (grid brickId : Vec3i) : UniformRealDistribution :=
  ⟨(brickLowerOf grid brickId).y + sphereRadius, (brickUpperOf grid brickId).y - sphereRadius⟩

/-- See `distX`. -/
def distZ (grid brickId : Vec3i) : UniformRealDistribution :=
  ⟨(brickLowerOf grid brickId).z + sphereRadius, (brickUpperOf grid brickId).z - sphereRadius⟩

/-- The sphere geometry returned by `makeLocalSpheres`: the centres `org` and the radius. -/
structure SphereGeometry where
  spheres : List Vec3f
  radius : ℚ
deriving DecidableEq

/-- The function `makeLocalSpheres(mpiRank, mpiWorldSize)`.  The generator `rng` is the stream
of canonical variates; sphere `k` of the ten consumes draws `3k`, `3k+1`, `3k+2` for its
`x`, `y`, `z`.  The material (a colour that depends on the rank) is not part of the model. -/
def makeLocalSpheres (mpiRank mpiWorldSize : Nat) (rng : Nat → ℚ) : Option SphereGeometry :=
  (computeGrid mpiWorldSize).map fun grid =>
    let brickId := brickIdOf grid mpiRank
    { spheres := (List.range 10).map fun k =>
        ⟨(distX grid brickId).sample (rng (3 * k)),
         (distY grid brickId).sample (rng (3 * k + 1)),
         (distZ grid brickId).sample (rng (3 * k + 2))⟩
      radius := sphereRadius }

/-! ## The binary32 arithmetic of `makeLocalSpheres` -/

/-- Rounding of a rational to the nearest integer, ties to the even one. -/
def roundHalfEven (y : ℚ) : ℤ :=
  let f := ⌊y⌋
  let d := y - f
  if d < 1 / 2 then f else if 1 / 2 < d then f + 1 else if f % 2 = 0 then f else f + 1

/-- Rounding to the nearest binary floating-point number with a significand of `p` bits, ties
to even: for `2^e <= |x| < 2^(e+1)` the result is a multiple of `2^(e - (p - 1))`. -/
def roundTo (p : ℕ) (x : ℚ) : ℚ :=
  if x = 0 then 0 else
    let q : ℚ := 2 ^ (Int.log 2 |x| - ((p : ℤ) - 1))
    roundHalfEven (x / q) * q

/-- Rounding to `float` (binary32, 24-bit significand). -/
def toFloat (x : ℚ) : ℚ := roundTo 24 x

/-- Rounding to `double` (binary64, 53-bit significand). -/
def toDouble (x : ℚ) : ℚ := roundTo 53 x

/-- The conversion `vec3f(v)` of an integer vector, each component rounded to `float`. -/
def F32.ofVec3i (v : Vec3i) : Vec3f := ⟨toFloat v.x, toFloat v.y, toFloat v.z⟩

/-- Component-wise `a + b` in `float`. -/
def F32.add (a b : Vec3f) : Vec3f := ⟨toFloat (a.x + b.x), toFloat (a.y + b.y), toFloat (a.z + b.z)⟩

/-- Component-wise `a - b` in `float`. -/
def F32.sub (a b : Vec3f) : Vec3f := ⟨toFloat (a.x - b.x), toFloat (a.y - b.y), toFloat (a.z - b.z)⟩

/-- Component-wise `a * b` in `float`. -/
def F32.mul (a b : Vec3f) : Vec3f := ⟨toFloat (a.x * b.x), toFloat (a.y * b.y), toFloat (a.z * b.z)⟩

/-- Component-wise `a / b` in `float`. -/
def F32.div (a b : Vec3f) : Vec3f := ⟨toFloat (a.x / b.x), toFloat (a.y / b.y), toFloat (a.z / b.z)⟩

/-- The constant `const float sphereRadius = 0.1`: the `double` literal `0.1` converted to
`float`. -/
def F32.sphereRadius : ℚ := toFloat (toDouble (1 / 10))

/-- The vector `brickSize = vec3f(2.0) / vec3f(grid)` in `float`. -/
def F32.brickSizeOf (grid : Vec3i) : Vec3f :=
  F32.div (Vec3f.splat 2) (F32.ofVec3i grid)

/-- The vector `brickLower = brickSize * brickId - vec3f(1.f)` in `float`. -/
def F32.brickLowerOf (grid brickId : Vec3i) : Vec3f :=
  F32.sub (F32.mul (F32.brickSizeOf grid) (F32.ofVec3i brickId)) (Vec3f.splat 1)

/-- The vector `brickUpper = brickSize * brickId - vec3f(1.f) + brickSize` in `float`. -/
def F32.brickUpperOf (grid brickId : Vec3i) : Vec3f :=
  F32.add (F32.sub (F32.mul (F32.brickSizeOf grid) (F32.ofVec3i brickId)) (Vec3f.splat 1))
    (F32.brickSizeOf grid)

/-- The distribution `distX` with its bounds `brickLower.x + sphereRadius` and
`brickUpper.x - sphereRadius` computed in `float`. -/
def F32.distX (grid brickId : Vec3i) : UniformRealDistribution :=
  ⟨toFloat ((F32.brickLowerOf grid brickId).x + F32.sphereRadius),
   toFloat ((F32.brickUpperOf grid brickId).x - F32.sphereRadius)⟩

/-- See `F32.distX`. -/
def F32.distY (grid brickId : Vec3i) : UniformRealDistribution :=
  ⟨toFloat ((F32.brickLowerOf grid brickId).y + F32.sphereRadius),
   toFloat ((F32.brickUpperOf grid brickId).y - F32.sphereRadius)⟩

/-- See `F32.distX`. -/
def F32.distZ (grid brickId : Vec3i) : UniformRealDistribution :=
  ⟨toFloat ((F32.brickLowerOf grid brickId).z + F32.sphereRadius),
   toFloat ((F32.brickUpperOf grid brickId).z - F32.sphereRadius)⟩

/-- A sphere of centre `c` and radius `r` lies in the box `[lower, upper]`: on each axis
`lower <= c - r` and `c + r <= upper`. -/
def sphereInBox (lower upper c : Vec3f) (r : ℚ) : Prop :=
  (lower.x ≤ c.x - r ∧ c.x + r ≤ upper.x) ∧
  (lower.y ≤ c.y - r ∧ c.y + r ≤ upper.y) ∧
  (lower.z ≤ c.z - r ∧ c.z + r ≤ upper.z)

/-- Whether a sphere lies in a box can be computed. -/
instance sphereInBoxDecidable (lower upper c : Vec3f) (r : ℚ) :
    Decidable (sphereInBox lower upper c r) := by
  unfold sphereInBox; infer_instance

/-- A coordinate lies in the grid `[0,gx) x [0,gy) x [0,gz)`. -/
def inGrid (grid c : Vec3i) : Prop := c.x < grid.x ∧ c.y < grid.y ∧ c.z < grid.z

/-- Whether a coordinate lies in a grid can be computed. -/
instance inGridDecidable (grid c : Vec3i) : Decidable (inGrid grid c) := by
  unfold inGrid; infer_instance

/-- The rank that owns the grid coordinate `c`: the inverse of `brickIdOf`. -/
def rankOf (grid c : Vec3i) : Nat := c.x + grid.x * (c.y + grid.y * c.z)

/-! ## Round-robin factor assignment, as the specification words it -/

/-- Product of the entries `p_j` of `ps` whose index `j` satisfies `j mod 3 = a`. -/
def axisProduct (ps : List Nat) (a : Nat) : Nat :=
  (((List.range ps.length).filter (fun j => j % 3 = a)).map (fun j => ps.getD j 1)).prod

/-- Round-robin hand-out of the factors `ps`, the first one going to `axis`. -/
def distribute : List Nat → Nat → Vec3i → Vec3i
  | [], _, grid => grid
  | p :: ps, axis, grid => distribute ps ((axis + 1) % 3) (grid.mulAxis axis p)

/-- Product of the `p_j` with `(j + o) mod 3 = a`, by recursion on the list. -/
def axisProductFrom : List Nat → Nat → Nat → Nat
  | [], _, _ => 1
  | p :: ps, o, a => (if o % 3 = a then p else 1) * axisProductFrom ps (o + 1) a

/-! ## Parameterised objects -/

/-- An object handle (`OSPObject`, `ManagedObject *`); a possibly null pointer is an
`Option Handle`. -/
abbrev Handle := Nat

/-- Modelled from the spec: the tagged parameter value of a managed object (its declaration is
not part of the sources at hand). -/
inductive ParamValue where
  | int (v : Int)
  | float (v : ℚ)
  | string (v : String)
  | object (h : Handle)
deriving DecidableEq

/-- The parameter table of a managed object. -/
abbrev Params := List (String × ParamValue)

/-- Modelled from the spec: `set(name, value)` stores or overwrites the parameter `name`. -/
def Params.set (ps : Params) (name : String) (v : ParamValue) : Params :=
  (name, v) :: ps.filter (fun q => q.1 != name)

/-- Modelled from the spec: `ManagedObject::getParamObject(name, valIfNotFound)` returns the
object bound to `name`, or the default when `name` is unset or not an object. -/
def Params.getParamObject (ps : Params) (name : String) (valIfNotFound : Option Handle) :
    Option Handle :=
  match ps.lookup name with
  | some (ParamValue.object h) => some h
  | _ => valIfNotFound

/-! ## `OBJRenderer` -/

/-- Modelled from the spec: the macro `Assert2(expr, expl)` fails with the explanation `expl`
when `expr` is false (a missing required binding fails loudly). -/
def Assert2 (expr : Bool) (expl : String) : Except String Unit :=
  if expr then Except.ok () else Except.error expl

/-- The frame buffer handed to `createRenderJob`: a pixel grid. -/
structure FrameBuffer where
  width : Nat
  height : Nat
  pixels : List Nat
deriving DecidableEq

/-- The structure `OBJRenderer::RenderTask`: the `world` and `camera` pointers. -/
structure RenderTask where
  world : Option Handle
  camera : Option Handle
deriving DecidableEq

/-- The explanation of the first assertion of `createRenderJob`. -/
def nullWorldHandle : String :=
  "null world handle (did you forget to assign a 'world' parameter to the ray_cast renderer?)"

/-- The explanation of the second assertion of `createRenderJob`. -/
def nullCameraHandle : String :=
  "null camera handle (did you forget to assign a 'camera' parameter to the ray_cast renderer?)"

/-- The method `OBJRenderer::createRenderJob(fb)` on a renderer with parameter table `self`.
The result is paired with the frame buffer as the call leaves it. -/
def OBJRenderer.createRenderJob (self : Params) (fb : FrameBuffer) :
    Except String RenderTask × FrameBuffer :=
  let job : Except String RenderTask := do
    let world := self.getParamObject "world" none
    Assert2 world.isSome nullWorldHandle
    let camera := self.getParamObject "camera" none
    Assert2 camera.isSome nullCameraHandle
    pure { world := world, camera := camera }
  (job, fb)

/-- The message `msg` names the binding `name`: it holds `name` between two single quotes
(character 39). -/
def namesBinding (msg name : String) : Prop :=
  (Char.ofNat 39 :: name.toList ++ [Char.ofNat 39]) <:+: msg.toList

/-- The materials `OBJRenderer::createMaterial` can return. -/
inductive Material where
  | OBJMaterial
deriving DecidableEq

/-- The lights `OBJRenderer::createLight` can return. -/
inductive Light where
  | OBJPointLight
deriving DecidableEq

/-- The C library function `strcmp` on strings given as their characters; the end of the list
is the terminating NUL.  The result is zero, or the difference of the first two characters
that differ. -/
def strcmp : List Char → List Char → Int
  | [], [] => 0
  | [], b :: _ => -(b.toNat : Int)
  | a :: _, [] => (a.toNat : Int)
  | a :: as, b :: bs => if a = b then strcmp as bs else (a.toNat : Int) - (b.toNat : Int)

/-- The method `OBJRenderer::createMaterial(type)`. -/
def OBJRenderer.createMaterial (_type : String) : Option Material :=
  some Material.OBJMaterial

/-- The method `OBJRenderer::createLight(type)`; `none` is the `NULL` result. -/
def OBJRenderer.createLight (type : String) : Option Light :=
  if strcmp "PointLight".toList type.toList = 0 then some Light.OBJPointLight else none

/-! ## The display callback of `main` -/

/-- The state one rank's display callback reads and writes: the captured `spp` and
`currentSpp`, the renderer's parameters, and the window's list of objects to commit. -/
structure RankState where
  spp : Int
  currentSpp : Int
  rendererParams : Params
  objectsToCommit : List Handle
deriving DecidableEq

/-- Modelled from the spec: `MPI_Bcast(&spp, 1, MPI_INT, 0, MPI_COMM_WORLD)` leaves the value
`v` held by rank 0 in the buffer of every rank. -/
def MPI_Bcast (v : Int) (_buffer : Int) : Int := v

/-- Modelled from the spec: `ospSet1i(object, name, value)` sets an integer parameter. -/
def ospSet1i (ps : Params) (name : String) (v : Int) : Params :=
  ps.set name (ParamValue.int v)

/-- Modelled from the spec: `addObjectToCommit(object)` queues the object for a commit before
the next frame is rendered. -/
def addObjectToCommit (queue : List Handle) (object : Handle) : List Handle :=
  queue ++ [object]

/-- The lambda registered with `registerDisplayCallback`, run on one rank in a frame in which
rank 0 broadcasts `v`; `renderer` is the renderer's handle. -/
def displayCallback (renderer : Handle) (v : Int) (s : RankState) : RankState :=
  let spp := MPI_Bcast v s.spp
  if spp ≠ s.currentSpp then
    { spp := spp
      currentSpp := spp
      rendererParams := ospSet1i s.rendererParams "spp" spp
      objectsToCommit := addObjectToCommit s.objectsToCommit renderer }
  else
    { s with spp := spp }

/-- The callback run over the broadcasts of successive frames. -/
def runFrames (renderer : Handle) (vs : List Int) (s : RankState) : RankState :=
  vs.foldl (fun st v => displayCallback renderer v st) s

/-- The state of every rank when the main loop starts: `spp = 1`, `currentSpp = 1`. -/
def initialRankState (rendererParams : Params) : RankState :=
  { spp := 1, currentSpp := 1, rendererParams := rendererParams, objectsToCommit := [] }

/-- Whether a message names a binding can be computed. -/
instance namesBindingDecidable (msg name : String) : Decidable (namesBinding msg name) := by
  unfold namesBinding; infer_instance

/-! ## Properties of `computeDivisor` -/

theorem computeDivisorLoop_eq_some (x : Nat) (k : Nat) : ∀ (i d : Nat),
    computeDivisorLoop x i k = some d ↔
      (i ≤ d ∧ d < i + k ∧ x % d = 0 ∧ ∀ j, i ≤ j → j < d → x % j ≠ 0) := by
  induction k with
  | zero =>
    intro i d
    simp only [computeDivisorLoop]
    constructor
    · intro h; cases h
    · rintro ⟨h1, h2, -⟩; omega
  | succ k ih =>
    intro i d
    simp only [computeDivisorLoop]
    by_cases hx : x % i = 0
    · rw [if_pos hx]
      constructor
      · intro h
        cases h
        exact ⟨le_refl _, by omega, hx, fun j h1 h2 => by omega⟩
      · rintro ⟨h1, _, _, h4⟩
        rcases Nat.eq_or_lt_of_le h1 with h | h
        · rw [h]
        · exact absurd hx (h4 i (le_refl _) h)
    · rw [if_neg hx, ih]
      constructor
      · rintro ⟨h1, h2, h3, h4⟩
        refine ⟨by omega, by omega, h3, fun j hj1 hj2 => ?_⟩
        rcases Nat.eq_or_lt_of_le hj1 with h | h
        · rw [← h]; exact hx
        · exact h4 j h hj2
      · rintro ⟨h1, h2, h3, h4⟩
        have hne : i ≠ d := by
          intro h; rw [h] at hx; exact hx h3
        exact ⟨by omega, by omega, h3, fun j hj1 hj2 => h4 j (by omega) hj2⟩

theorem computeDivisorLoop_eq_none (x : Nat) (k : Nat) : ∀ (i : Nat),
    computeDivisorLoop x i k = none ↔ ∀ j, i ≤ j → j < i + k → x % j ≠ 0 := by
  induction k with
  | zero =>
    intro i
    simp only [computeDivisorLoop, true_iff]
    intro j h1 h2; omega
  | succ k ih =>
    intro i
    simp only [computeDivisorLoop]
    by_cases hx : x % i = 0
    · rw [if_pos hx]
      constructor
      · intro h; cases h
      · intro h; exact absurd hx (h i (le_refl _) (by omega))
    · rw [if_neg hx, ih]
      constructor
      · intro h j hj1 hj2
        rcases Nat.eq_or_lt_of_le hj1 with e | e
        · rw [← e]; exact hx
        · exact h j e (by omega)
      · intro h j hj1 hj2
        exact h j (by omega) (by omega)

theorem computeDivisor_of_prime {x : Nat} (hp : x.Prime) : computeDivisor x = none := by
  unfold computeDivisor
  rw [computeDivisorLoop_eq_none]
  intro j hj1 hj2 hmod
  have hdvd : j ∣ x := Nat.dvd_of_mod_eq_zero hmod
  have hle : j ≤ Nat.sqrt x := by omega
  have hsq : j * j ≤ x := Nat.le_sqrt.1 hle
  rcases (Nat.dvd_prime hp).1 hdvd with h | h
  · omega
  · subst h
    have : 2 * j ≤ j * j := Nat.mul_le_mul_right j hj1
    omega

theorem computeDivisor_of_not_prime {x : Nat} (hx : 2 ≤ x) (hp : ¬ x.Prime) :
    computeDivisor x = some x.minFac := by
  unfold computeDivisor
  rw [computeDivisorLoop_eq_some]
  have hmp : (Nat.minFac x).Prime := Nat.minFac_prime (by omega)
  have h2 : 2 ≤ Nat.minFac x := hmp.two_le
  have hsq : Nat.minFac x ≤ Nat.sqrt x := by
    rw [Nat.le_sqrt, ← sq]
    exact Nat.minFac_sq_le_self (by omega) hp
  refine ⟨h2, by omega, Nat.mod_eq_zero_of_dvd (Nat.minFac_dvd x), fun j hj1 hj2 hmod => ?_⟩
  have := Nat.minFac_le_of_dvd hj1 (Nat.dvd_of_mod_eq_zero hmod)
  omega

theorem axisProduct_shift (ps : List Nat) : ∀ (o a : Nat),
    (((List.range ps.length).filter (fun j => (j + o) % 3 = a)).map
      (fun j => ps.getD j 1)).prod = axisProductFrom ps o a := by
  induction ps with
  | nil => intro o a; simp [axisProductFrom]
  | cons p ps ih =>
    intro o a
    rw [List.length_cons, List.range_succ_eq_map, List.filter_cons]
    simp only [Nat.zero_add, axisProductFrom]
    have hrest : ((List.filter (fun j => decide ((j + o) % 3 = a))
          (List.map Nat.succ (List.range ps.length))).map (fun j => (p :: ps).getD j 1)).prod
        = axisProductFrom ps (o + 1) a := by
      rw [← ih (o + 1) a, List.filter_map, List.map_map]
      have hf : ((fun j => (p :: ps).getD j 1) ∘ Nat.succ) = (fun j => ps.getD j 1) := by
        funext j
        simp [Function.comp]
      have hg : ((fun j => decide ((j + o) % 3 = a)) ∘ Nat.succ)
          = (fun j => decide ((j + (o + 1)) % 3 = a)) := by
        funext j
        simp only [Function.comp, Nat.succ_eq_add_one]
        rw [show j + 1 + o = j + (o + 1) by omega]
      rw [hf, hg]
    by_cases h : o % 3 = a
    · simp only [h, decide_True, if_true, List.map_cons, List.prod_cons]
      rw [hrest]; simp
    · simp only [h, decide_False, if_false, one_mul]
      simpa using hrest

theorem axisProduct_eq (ps : List Nat) (a : Nat) : axisProduct ps a = axisProductFrom ps 0 a := by
  have := axisProduct_shift ps 0 a
  simpa [axisProduct] using this

/-! ## Properties of `computeGrid` -/

theorem mulAxis_cells (grid : Vec3i) (axis d : Nat) :
    (grid.mulAxis axis d).cells = grid.cells * d := by
  unfold Vec3i.mulAxis Vec3i.cells
  split <;> simp only <;> ring

theorem distribute_cells (ps : List Nat) : ∀ (axis : Nat) (grid : Vec3i),
    (distribute ps axis grid).cells = grid.cells * ps.prod := by
  induction ps with
  | nil => intro axis grid; simp [distribute]
  | cons p ps ih =>
    intro axis grid
    simp only [distribute, ih, mulAxis_cells, List.prod_cons]
    ring

theorem distribute_eq (ps : List Nat) : ∀ (axis : Nat) (grid : Vec3i), axis < 3 →
    distribute ps axis grid =
      ⟨grid.x * axisProductFrom ps axis 0, grid.y * axisProductFrom ps axis 1,
       grid.z * axisProductFrom ps axis 2⟩ := by
  induction ps with
  | nil => intro axis grid _; simp [distribute, axisProductFrom]
  | cons p ps ih =>
    intro axis grid haxis
    have hnext : (axis + 1) % 3 < 3 := Nat.mod_lt _ (by decide)
    have hshift : ∀ a, axisProductFrom ps ((axis + 1) % 3) a = axisProductFrom ps (axis + 1) a := by
      intro a
      rw [← axisProduct_shift, ← axisProduct_shift]
      simp only [Nat.add_mod_mod]
    simp only [distribute, ih _ _ hnext, axisProductFrom, hshift]
    interval_cases axis <;> simp [Vec3i.mulAxis, Nat.mul_assoc]

/-- The loop of `computeGrid` ends within `num + 1` iterations and hands the prime factors of
`num`, in increasing order, round-robin to the axes starting at `axis`. -/
theorem computeGridLoop_eq : ∀ (fuel num axis : Nat) (grid : Vec3i), 1 ≤ num → num < fuel →
    computeGridLoop fuel grid axis num = some (distribute (Nat.primeFactorsList num) axis grid) := by
  intro fuel
  induction fuel with
  | zero => intro num axis grid _ h; omega
  | succ fuel ih =>
    intro num axis grid h1 hf
    rcases Nat.eq_or_lt_of_le h1 with h | h
    · subst h
      simp [computeGridLoop, computeDivisor, computeDivisorLoop, distribute]
    · by_cases hp : num.Prime
      · simp only [computeGridLoop, computeDivisor_of_prime hp]
        rw [Nat.primeFactorsList_prime hp, if_pos (by omega)]
        simp [distribute]
      · have h2 : 2 ≤ num := h
        simp only [computeGridLoop, computeDivisor_of_not_prime h2 hp]
        have hmp : (Nat.minFac num).Prime := Nat.minFac_prime (by omega)
        have hdvd : Nat.minFac num ∣ num := Nat.minFac_dvd num
        have hlt : num / Nat.minFac num < num := Nat.div_lt_self (by omega) hmp.one_lt
        have hpos : 1 ≤ num / Nat.minFac num :=
          Nat.div_pos (Nat.le_of_dvd (by omega) hdvd) hmp.pos
        rw [ih _ _ _ hpos (by omega)]
        obtain ⟨k, rfl⟩ : ∃ k, num = k + 2 := ⟨num - 2, by omega⟩
        rw [Nat.primeFactorsList_add_two]
        simp [distribute]

theorem computeGrid_eq_distribute (N : Nat) (hN : 1 ≤ N) :
    computeGrid N = some (distribute (Nat.primeFactorsList N) 0 ⟨1, 1, 1⟩) :=
  computeGridLoop_eq (N + 1) N 0 ⟨1, 1, 1⟩ hN (Nat.lt_succ_self N)

theorem computeGrid_cells_of_eq {N : Nat} {g : Vec3i} (hN : 1 ≤ N) (hg : computeGrid N = some g) :
    g.cells = N := by
  rw [computeGrid_eq_distribute N hN] at hg
  cases hg
  rw [distribute_cells, Nat.prod_primeFactorsList (by omega)]
  simp [Vec3i.cells]

/-- Every grid dimension is at least one and at most the world size, so no product formed by
`computeGrid` or `makeLocalSpheres` leaves the range of the world size. -/
theorem computeGrid_components_le {N : Nat} {g : Vec3i} (hN : 1 ≤ N)
    (hg : computeGrid N = some g) :
    (1 ≤ g.x ∧ g.x ≤ N) ∧ (1 ≤ g.y ∧ g.y ≤ N) ∧ (1 ≤ g.z ∧ g.z ≤ N) ∧ g.x * g.y ≤ N := by
  have hc := computeGrid_cells_of_eq hN hg
  unfold Vec3i.cells at hc
  have hx : 1 ≤ g.x := by
    rcases Nat.eq_zero_or_pos g.x with h | h
    · rw [h] at hc; simp at hc; omega
    · exact h
  have hy : 1 ≤ g.y := by
    rcases Nat.eq_zero_or_pos g.y with h | h
    · rw [h] at hc; simp at hc; omega
    · exact h
  have hz : 1 ≤ g.z := by
    rcases Nat.eq_zero_or_pos g.z with h | h
    · rw [h] at hc; simp at hc; omega
    · exact h
  have hxy : g.x * g.y ≤ N := by
    calc g.x * g.y = g.x * g.y * 1 := (Nat.mul_one _).symm
      _ ≤ g.x * g.y * g.z := Nat.mul_le_mul_left _ hz
      _ = N := hc
  have hxle : g.x ≤ N := by
    calc g.x = g.x * 1 := (Nat.mul_one _).symm
      _ ≤ g.x * g.y := Nat.mul_le_mul_left _ hy
      _ ≤ N := hxy
  have hyle : g.y ≤ N := by
    calc g.y = 1 * g.y := (Nat.one_mul _).symm
      _ ≤ g.x * g.y := Nat.mul_le_mul_right _ hx
      _ ≤ N := hxy
  have hzle : g.z ≤ N := by
    calc g.z = 1 * g.z := (Nat.one_mul _).symm
      _ ≤ g.x * g.y * g.z := Nat.mul_le_mul_right _ (Nat.mul_pos hx hy)
      _ = N := hc
  exact ⟨⟨hx, hxle⟩, ⟨hy, hyle⟩, ⟨hz, hzle⟩, hxy⟩

/-- Claim C1: for every world size `N >= 1`, `computeGrid N` returns a grid `(gx, gy, gz)`
with `gx * gy * gz = N`. -/
theorem computeGrid_product (N : Nat) (hN : 1 ≤ N) :
    ∃ g, computeGrid N = some g ∧ g.x * g.y * g.z = N :=
  ⟨_, computeGrid_eq_distribute N hN, computeGrid_cells_of_eq hN (computeGrid_eq_distribute N hN)⟩

/-- Instance of `computeGrid_product` at world size 12. -/
theorem computeGrid_product_witness :
    1 ≤ 12 ∧ ∃ g, computeGrid 12 = some g ∧ g.x * g.y * g.z = 12 :=
  ⟨by decide, computeGrid_product 12 (by decide)⟩

/-- Claim C3, as the code has it: for every prime world size `N`, `computeGrid N` returns
`(N, 1, 1)`: the loop body never runs, so the whole of `N` goes to axis 0. -/
theorem computeGrid_prime (N : Nat) (hN : N.Prime) : computeGrid N = some ⟨N, 1, 1⟩ := by
  rw [computeGrid_eq_distribute N hN.one_lt.le, Nat.primeFactorsList_prime hN]
  simp [distribute, Vec3i.mulAxis]

/-- Instance of `computeGrid_prime` at world size 7. -/
theorem computeGrid_prime_witness : Nat.Prime 7 ∧ computeGrid 7 = some ⟨7, 1, 1⟩ :=
  ⟨by norm_num, computeGrid_prime 7 (by norm_num)⟩

/-- Claim C3, refuted as stated: 7 is prime and `computeGrid 7` is `(7, 1, 1)`, not
`(1, 1, 7)`. -/
theorem computeGrid_seven_ne : Nat.Prime 7 ∧ computeGrid 7 ≠ some ⟨1, 1, 7⟩ := by
  refine ⟨by norm_num, ?_⟩
  simp [computeGrid, computeGridLoop, computeDivisor, computeDivisorLoop, Nat.sqrt,
    Nat.sqrt.iter, Vec3i.mulAxis]

/-- Claim C4: `computeGrid 8 = (2, 2, 2)`, and in that grid rank 5 gets the brick coordinate
`(1, 0, 1)`. -/
theorem computeGrid_eight_rank_five :
    computeGrid 8 = some ⟨2, 2, 2⟩ ∧
      (computeGrid 8).map (fun grid => brickIdOf grid 5) = some ⟨1, 0, 1⟩ := by
  have h : computeGrid 8 = some ⟨2, 2, 2⟩ := by
    simp [computeGrid, computeGridLoop, computeDivisor, computeDivisorLoop, Nat.sqrt,
      Nat.sqrt.iter, Vec3i.mulAxis]
  refine ⟨h, ?_⟩
  rw [h]
  decide

theorem computeDivisor_isSome_iff (x : Nat) :
    (computeDivisor x).isSome ↔ 2 ≤ x ∧ ¬ x.Prime := by
  by_cases hx : 2 ≤ x
  · by_cases hp : x.Prime
    · simp [computeDivisor_of_prime hp, hp]
    · simp [computeDivisor_of_not_prime hx hp, hp, hx]
  · have hle : x ≤ 1 := by omega
    have hs : Nat.sqrt x ≤ 1 := le_trans (Nat.sqrt_le_self x) hle
    have hk : Nat.sqrt x + 1 - 2 = 0 := by omega
    simp [computeDivisor, hk, computeDivisorLoop, hx]

theorem sorted_primes_eq_primeFactorsList {N : Nat} {ps : List Nat}
    (hsorted : ps.Sorted (· ≤ ·)) (hprime : ∀ p ∈ ps, p.Prime) (hprod : ps.prod = N) :
    ps = Nat.primeFactorsList N :=
  List.eq_of_perm_of_sorted (Nat.primeFactorsList_unique hprod hprime) hsorted
    (Nat.primeFactorsList_sorted N)

/-- Claim C9: let `N >= 2` have the prime factorisation `ps = [p_0, ..., p_(k-1)]` in
increasing order.  Then `computeGrid N` ends and returns the grid whose axis `a` is the product
of the `p_j` with `j mod 3 = a`.  Moreover `computeDivisor x` succeeds exactly when `x` is
composite, and then yields the least divisor `>= 2` of `x`, which is prime; and one iteration
of the loop on a composite remainder multiplies the current axis by that divisor, divides the
remainder by it and moves to the next axis, while on a prime remainder the loop ends and the
remainder is multiplied into the current axis. -/
theorem computeGrid_round_robin (N : Nat) (ps : List Nat) (hN : 2 ≤ N)
    (hsorted : ps.Sorted (· ≤ ·)) (hprime : ∀ p ∈ ps, p.Prime) (hprod : ps.prod = N) :
    computeGrid N = some ⟨axisProduct ps 0, axisProduct ps 1, axisProduct ps 2⟩ ∧
    (∀ x, (computeDivisor x).isSome ↔ 2 ≤ x ∧ ¬ x.Prime) ∧
    (∀ x d, computeDivisor x = some d →
      d.Prime ∧ d ∣ x ∧ ∀ j, 2 ≤ j → j ∣ x → d ≤ j) ∧
    (∀ fuel grid axis num d, computeDivisor num = some d →
      computeGridLoop (fuel + 1) grid axis num =
        computeGridLoop fuel (grid.mulAxis axis d) ((axis + 1) % 3) (num / d)) ∧
    (∀ fuel grid axis num, num.Prime →
      computeGridLoop (fuel + 1) grid axis num = some (grid.mulAxis axis num)) := by
  refine ⟨?_, computeDivisor_isSome_iff, ?_, ?_, ?_⟩
  · rw [computeGrid_eq_distribute N (by omega),
      ← sorted_primes_eq_primeFactorsList hsorted hprime hprod,
      distribute_eq ps 0 ⟨1, 1, 1⟩ (by decide)]
    simp [axisProduct_eq]
  · intro x d hd
    have hsome : (computeDivisor x).isSome := by simp [hd]
    obtain ⟨hx, hp⟩ := (computeDivisor_isSome_iff x).1 hsome
    rw [computeDivisor_of_not_prime hx hp] at hd
    cases hd
    exact ⟨Nat.minFac_prime (by omega), Nat.minFac_dvd x,
      fun j hj hdvd => Nat.minFac_le_of_dvd hj hdvd⟩
  · intro fuel grid axis num d hd
    simp [computeGridLoop, hd]
  · intro fuel grid axis num hp
    have hne : num ≠ 1 := hp.one_lt.ne'
    simp [computeGridLoop, computeDivisor_of_prime hp, hne]

/-- Instance of `computeGrid_round_robin` at `N = 24 = 2 * 2 * 2 * 3`. -/
theorem computeGrid_round_robin_witness :
    (2 ≤ 24 ∧ [2, 2, 2, 3].Sorted (· ≤ ·) ∧ (∀ p ∈ [2, 2, 2, 3], Nat.Prime p) ∧
      [2, 2, 2, 3].prod = 24) ∧
    computeGrid 24 = some ⟨6, 2, 2⟩ :=
  ⟨⟨by decide, by decide, by norm_num, by decide⟩,
    (computeGrid_round_robin 24 [2, 2, 2, 3] (by decide) (by decide) (by norm_num)
      (by decide)).1⟩

/-! ## The brick coordinate of a rank -/

theorem brickIdOf_inGrid {grid : Vec3i} (hx : 0 < grid.x) (hy : 0 < grid.y) {r : Nat}
    (hr : r < grid.cells) : inGrid grid (brickIdOf grid r) := by
  refine ⟨Nat.mod_lt _ hx, Nat.mod_lt _ hy, ?_⟩
  show r / (grid.x * grid.y) < grid.z
  rw [Nat.div_lt_iff_lt_mul (Nat.mul_pos hx hy)]
  unfold Vec3i.cells at hr
  rw [Nat.mul_comm]
  exact hr

theorem rankOf_brickIdOf (grid : Vec3i) (r : Nat) : rankOf grid (brickIdOf grid r) = r := by
  unfold rankOf brickIdOf
  simp only
  rw [← Nat.div_div_eq_div_mul, Nat.mod_add_div, Nat.mod_add_div]

theorem brickIdOf_rankOf {grid c : Vec3i} (hc : inGrid grid c) :
    brickIdOf grid (rankOf grid c) = c := by
  obtain ⟨hx, hy, hz⟩ := hc
  have hgx : 0 < grid.x := by omega
  have hgy : 0 < grid.y := by omega
  unfold rankOf brickIdOf
  have h1 : (c.x + grid.x * (c.y + grid.y * c.z)) % grid.x = c.x := by
    rw [Nat.add_mul_mod_self_left, Nat.mod_eq_of_lt hx]
  have h2 : (c.x + grid.x * (c.y + grid.y * c.z)) / grid.x = c.y + grid.y * c.z := by
    rw [Nat.add_mul_div_left _ _ hgx, Nat.div_eq_of_lt hx, Nat.zero_add]
  have h3 : (c.y + grid.y * c.z) % grid.y = c.y := by
    rw [Nat.add_mul_mod_self_left, Nat.mod_eq_of_lt hy]
  have h4 : (c.y + grid.y * c.z) / grid.y = c.z := by
    rw [Nat.add_mul_div_left _ _ hgy, Nat.div_eq_of_lt hy, Nat.zero_add]
  have h5 : (c.x + grid.x * (c.y + grid.y * c.z)) / (grid.x * grid.y) = c.z := by
    rw [← Nat.div_div_eq_div_mul, h2, h4]
  rw [h1, h2, h3, h5]

theorem rankOf_lt {grid c : Vec3i} (hc : inGrid grid c) : rankOf grid c < grid.cells := by
  obtain ⟨hx, hy, hz⟩ := hc
  unfold rankOf Vec3i.cells
  have h1 : c.y + grid.y * c.z + 1 ≤ grid.y * grid.z := by
    calc c.y + grid.y * c.z + 1 ≤ grid.y + grid.y * c.z := by omega
      _ = grid.y * (c.z + 1) := by ring
      _ ≤ grid.y * grid.z := Nat.mul_le_mul_left _ hz
  calc c.x + grid.x * (c.y + grid.y * c.z)
      < grid.x + grid.x * (c.y + grid.y * c.z) := by omega
    _ = grid.x * (c.y + grid.y * c.z + 1) := by ring
    _ ≤ grid.x * (grid.y * grid.z) := Nat.mul_le_mul_left _ h1
    _ = grid.x * grid.y * grid.z := by ring

/-- Claim C2: for every world size `N >= 1` with `(gx, gy, gz) = computeGrid N`, the map
`r -> (r mod gx, (r / gx) mod gy, r / (gx * gy))` of `makeLocalSpheres` sends the ranks
`[0, N)` into the grid, no two ranks get the same coordinate, and every grid coordinate is
the coordinate of exactly one rank. -/
theorem brickIdOf_bijective (N : Nat) (hN : 1 ≤ N) :
    ∃ g, computeGrid N = some g ∧
      (∀ r, r < N → inGrid g (brickIdOf g r)) ∧
      (∀ r₁ r₂, r₁ < N → r₂ < N → brickIdOf g r₁ = brickIdOf g r₂ → r₁ = r₂) ∧
      (∀ c, inGrid g c → ∃! r, r < N ∧ brickIdOf g r = c) := by
  have hg := computeGrid_eq_distribute N hN
  have hcells := computeGrid_cells_of_eq hN hg
  obtain ⟨⟨hx, -⟩, ⟨hy, -⟩, -⟩ := computeGrid_components_le hN hg
  refine ⟨_, hg, ?_, ?_, ?_⟩
  · intro r hr
    exact brickIdOf_inGrid hx hy (by rw [hcells]; exact hr)
  · intro r₁ r₂ _ _ h
    rw [← rankOf_brickIdOf _ r₁, ← rankOf_brickIdOf _ r₂, h]
  · intro c hc
    refine ⟨rankOf _ c, ⟨?_, brickIdOf_rankOf hc⟩, ?_⟩
    · exact lt_of_lt_of_eq (rankOf_lt hc) hcells
    · rintro r ⟨-, hr⟩
      rw [← hr, rankOf_brickIdOf]

/-- Instance of `brickIdOf_bijective` at world size 8. -/
theorem brickIdOf_bijective_witness :
    1 ≤ 8 ∧ ∃ g, computeGrid 8 = some g ∧
      (∀ r, r < 8 → inGrid g (brickIdOf g r)) ∧
      (∀ r₁ r₂, r₁ < 8 → r₂ < 8 → brickIdOf g r₁ = brickIdOf g r₂ → r₁ = r₂) ∧
      (∀ c, inGrid g c → ∃! r, r < 8 ∧ brickIdOf g r = c) :=
  ⟨by decide, brickIdOf_bijective 8 (by decide)⟩

/-! ## `OBJRenderer` -/

theorem getParamObject_eq_some_iff (ps : Params) (name : String) (h : Handle) :
    ps.getParamObject name none = some h ↔ ps.lookup name = some (ParamValue.object h) := by
  unfold Params.getParamObject
  split
  · next h' heq => rw [heq]; simp
  · next hne =>
    constructor
    · intro hc; cases hc
    · intro hc; exact absurd hc (hne h)

theorem getParamObject_eq_none_iff (ps : Params) (name : String) :
    ps.getParamObject name none = none ↔ ¬ ∃ h, ps.lookup name = some (ParamValue.object h) := by
  constructor
  · rintro hn ⟨h, hh⟩
    rw [(getParamObject_eq_some_iff ps name h).2 hh] at hn
    cases hn
  · intro hn
    cases hq : ps.getParamObject name none with
    | none => rfl
    | some h => exact absurd ⟨h, (getParamObject_eq_some_iff ps name h).1 hq⟩ hn

set_option maxRecDepth 100000 in
theorem nullHandle_names :
    (namesBinding nullWorldHandle "world" ∧ ¬ namesBinding nullWorldHandle "camera") ∧
    (namesBinding nullCameraHandle "camera" ∧ ¬ namesBinding nullCameraHandle "world") :=
  ⟨⟨by decide, by decide⟩, ⟨by decide, by decide⟩⟩

/-- Claim C5: for every renderer parameter table and every frame buffer,
`OBJRenderer::createRenderJob` leaves the frame buffer as it was; it succeeds iff both the
`world` and the `camera` object parameters are set, and then returns the render task bound to
exactly those two objects; when `world` is not set it fails with the explanation that names
`world`, whatever `camera` is; when `world` is set and `camera` is not, it fails with the
explanation that names `camera`. -/
theorem createRenderJob_bindings (self : Params) (fb : FrameBuffer) :
    (OBJRenderer.createRenderJob self fb).2 = fb ∧
    ((∃ task, (OBJRenderer.createRenderJob self fb).1 = Except.ok task) ↔
      (∃ w, self.lookup "world" = some (ParamValue.object w)) ∧
      (∃ c, self.lookup "camera" = some (ParamValue.object c))) ∧
    (∀ w c, self.lookup "world" = some (ParamValue.object w) →
      self.lookup "camera" = some (ParamValue.object c) →
      (OBJRenderer.createRenderJob self fb).1 = Except.ok ⟨some w, some c⟩) ∧
    ((¬ ∃ w, self.lookup "world" = some (ParamValue.object w)) →
      (OBJRenderer.createRenderJob self fb).1 = Except.error nullWorldHandle) ∧
    ((∃ w, self.lookup "world" = some (ParamValue.object w)) →
      (¬ ∃ c, self.lookup "camera" = some (ParamValue.object c)) →
      (OBJRenderer.createRenderJob self fb).1 = Except.error nullCameraHandle) ∧
    (namesBinding nullWorldHandle "world" ∧ ¬ namesBinding nullWorldHandle "camera") ∧
    (namesBinding nullCameraHandle "camera" ∧ ¬ namesBinding nullCameraHandle "world") := by
  have hboth : ∀ w c, self.lookup "world" = some (ParamValue.object w) →
      self.lookup "camera" = some (ParamValue.object c) →
      (OBJRenderer.createRenderJob self fb).1 = Except.ok ⟨some w, some c⟩ := by
    intro w c hw hc
    simp only [OBJRenderer.createRenderJob, (getParamObject_eq_some_iff self "world" w).2 hw,
      (getParamObject_eq_some_iff self "camera" c).2 hc]
    rfl
  have hworld : (¬ ∃ w, self.lookup "world" = some (ParamValue.object w)) →
      (OBJRenderer.createRenderJob self fb).1 = Except.error nullWorldHandle := by
    intro hw
    simp only [OBJRenderer.createRenderJob, (getParamObject_eq_none_iff self "world").2 hw]
    rfl
  have hcamera : (∃ w, self.lookup "world" = some (ParamValue.object w)) →
      (¬ ∃ c, self.lookup "camera" = some (ParamValue.object c)) →
      (OBJRenderer.createRenderJob self fb).1 = Except.error nullCameraHandle := by
    rintro ⟨w, hw⟩ hc
    simp only [OBJRenderer.createRenderJob, (getParamObject_eq_some_iff self "world" w).2 hw,
      (getParamObject_eq_none_iff self "camera").2 hc]
    rfl
  refine ⟨rfl, ⟨?_, ?_⟩, hboth, hworld, hcamera, nullHandle_names.1, nullHandle_names.2⟩
  · rintro ⟨task, htask⟩
    by_cases hw : ∃ w, self.lookup "world" = some (ParamValue.object w)
    · by_cases hc : ∃ c, self.lookup "camera" = some (ParamValue.object c)
      · exact ⟨hw, hc⟩
      · rw [hcamera hw hc] at htask; cases htask
    · rw [hworld hw] at htask; cases htask
  · rintro ⟨⟨w, hw⟩, ⟨c, hc⟩⟩
    exact ⟨_, hboth w c hw hc⟩

/-- Instances of `createRenderJob_bindings`: both bindings set, `world` missing, and only
`camera` missing. -/
theorem createRenderJob_bindings_witness :
    (OBJRenderer.createRenderJob
        [("camera", ParamValue.object 2), ("world", ParamValue.object 1)] ⟨2, 1, [0, 0]⟩).1
      = Except.ok ⟨some 1, some 2⟩ ∧
    (OBJRenderer.createRenderJob [("camera", ParamValue.object 2)] ⟨2, 1, [0, 0]⟩).1
      = Except.error nullWorldHandle ∧
    (OBJRenderer.createRenderJob [("world", ParamValue.object 1)] ⟨2, 1, [0, 0]⟩).1
      = Except.error nullCameraHandle :=
  ⟨(createRenderJob_bindings _ _).2.2.1 1 2 rfl rfl,
    (createRenderJob_bindings _ _).2.2.2.1 (by rintro ⟨w, hw⟩; cases hw),
    (createRenderJob_bindings _ _).2.2.2.2.1 ⟨1, rfl⟩ (by rintro ⟨c, hc⟩; cases hc)⟩

theorem strcmp_eq_zero_iff : ∀ (a b : List Char), (∀ c ∈ a, c.toNat ≠ 0) →
    (∀ c ∈ b, c.toNat ≠ 0) → (strcmp a b = 0 ↔ a = b)
  | [], [], _, _ => by simp [strcmp]
  | [], b :: bs, _, hb => by
    have := hb b (List.mem_cons_self _ _)
    simp only [strcmp]
    constructor
    · intro h; omega
    · intro h; cases h
  | a :: as, [], ha, _ => by
    have := ha a (List.mem_cons_self _ _)
    simp only [strcmp]
    constructor
    · intro h; omega
    · intro h; cases h
  | a :: as, b :: bs, ha, hb => by
    have ih := strcmp_eq_zero_iff as bs (fun c hc => ha c (List.mem_cons_of_mem _ hc))
      (fun c hc => hb c (List.mem_cons_of_mem _ hc))
    simp only [strcmp]
    by_cases hab : a = b
    · rw [if_pos hab, ih]
      subst hab
      simp
    · rw [if_neg hab]
      constructor
      · intro h
        exfalso
        apply hab
        apply Char.ext
        apply UInt32.ext
        have : a.toNat = b.toNat := by omega
        exact this
      · intro h
        cases h
        exact absurd rfl hab

/-- Claim C8: `OBJRenderer::createLight` returns a light iff the type name is exactly
`PointLight`, and that light is an `OBJPointLight`; for every other type name the result is
the null pointer.  A C string holds no NUL character. -/
theorem createLight_iff (type : String) (hnul : ∀ c ∈ type.toList, c.toNat ≠ 0) :
    ((OBJRenderer.createLight type).isSome ↔ type = "PointLight") ∧
    (OBJRenderer.createLight type = some Light.OBJPointLight ↔ type = "PointLight") ∧
    (OBJRenderer.createLight type = none ↔ type ≠ "PointLight") := by
  have hkey : strcmp "PointLight".toList type.toList = 0 ↔ type = "PointLight" := by
    rw [strcmp_eq_zero_iff _ _ (by decide) hnul, String.toList_inj]
    exact eq_comm
  unfold OBJRenderer.createLight
  by_cases h : strcmp "PointLight".toList type.toList = 0
  · have ht := hkey.1 h
    rw [if_pos h]
    simp [ht]
  · have ht : type ≠ "PointLight" := fun e => h (hkey.2 e)
    rw [if_neg h]
    simp [ht]

/-- Instances of `createLight_iff`: the exact name gives a light; another case, a proper
initial segment, a longer name and the empty string give none. -/
theorem createLight_iff_witness :
    (∀ c ∈ "PointLight".toList, c.toNat ≠ 0) ∧
    OBJRenderer.createLight "PointLight" = some Light.OBJPointLight ∧
    OBJRenderer.createLight "pointlight" = none ∧
    OBJRenderer.createLight "Point" = none ∧
    OBJRenderer.createLight "PointLight2" = none ∧
    OBJRenderer.createLight "" = none :=
  ⟨by decide,
    (createLight_iff "PointLight" (by decide)).2.1.2 rfl,
    (createLight_iff "pointlight" (by decide)).2.2.2 (by decide),
    (createLight_iff "Point" (by decide)).2.2.2 (by decide),
    (createLight_iff "PointLight2" (by decide)).2.2.2 (by decide),
    (createLight_iff "" (by decide)).2.2.2 (by decide)⟩

/-! ## The display callback -/

theorem lookup_set (ps : Params) (name : String) (v : ParamValue) :
    (ps.set name v).lookup name = some v := by
  simp [Params.set, List.lookup]

theorem runFrames_append (renderer : Handle) (vs : List Int) (v : Int) (s : RankState) :
    runFrames renderer (vs ++ [v]) s = displayCallback renderer v (runFrames renderer vs s) := by
  simp [runFrames, List.foldl_append]

theorem displayCallback_currentSpp (renderer : Handle) (v : Int) (s : RankState) :
    (displayCallback renderer v s).currentSpp = v := by
  unfold displayCallback MPI_Bcast
  by_cases h : v = s.currentSpp
  · simp [h]
  · simp [h]

/-- Claim C6: for every rank state `s` and broadcast value `v`, one run of the display
callback leaves `currentSpp = v` (and `spp = v`).  If `v` differs from the `currentSpp` applied
before, the renderer's `spp` parameter becomes `v` and the renderer is appended to the objects
to commit; if `v` equals it, the renderer's parameters and the objects to commit are unchanged.
The outcome does not depend on the `spp` the rank held before the broadcast.  Hence, over any sequence of broadcasts, ranks that start from the same state end in the same
state, with `currentSpp` the last value broadcast; and a rank in its initial state that
receives `spp = 4` applies `spp = 4` and queues exactly its renderer. -/
theorem displayCallback_sync (renderer : Handle) (v : Int) (s : RankState) :
    ((displayCallback renderer v s).currentSpp = v ∧ (displayCallback renderer v s).spp = v) ∧
    (v ≠ s.currentSpp →
      (displayCallback renderer v s).rendererParams.lookup "spp" = some (ParamValue.int v) ∧
      (displayCallback renderer v s).rendererParams = ospSet1i s.rendererParams "spp" v ∧
      (displayCallback renderer v s).objectsToCommit = s.objectsToCommit ++ [renderer] ∧
      renderer ∈ (displayCallback renderer v s).objectsToCommit) ∧
    (v = s.currentSpp →
      (displayCallback renderer v s).rendererParams = s.rendererParams ∧
      (displayCallback renderer v s).objectsToCommit = s.objectsToCommit) ∧
    (∀ spp', displayCallback renderer v { s with spp := spp' } = displayCallback renderer v s) ∧
    (∀ (vs : List Int) (ranks : Fin 4 → RankState), (∀ i, ranks i = s) →
      ∀ i j, runFrames renderer (vs ++ [v]) (ranks i) = runFrames renderer (vs ++ [v]) (ranks j) ∧
        (runFrames renderer (vs ++ [v]) (ranks i)).currentSpp = v) ∧
    (∀ (ps : Params) (ranks : Fin 4 → RankState), (∀ i, ranks i = initialRankState ps) →
      ∀ i, (displayCallback renderer 4 (ranks i)).currentSpp = 4 ∧
        (displayCallback renderer 4 (ranks i)).rendererParams.lookup "spp"
          = some (ParamValue.int 4) ∧
        (displayCallback renderer 4 (ranks i)).objectsToCommit = [renderer]) := by
  refine ⟨⟨displayCallback_currentSpp renderer v s, ?_⟩, ?_, ?_, ?_, ?_, ?_⟩
  · unfold displayCallback MPI_Bcast
    by_cases h : v = s.currentSpp
    · simp [h]
    · simp [h]
  · intro h
    simp only [displayCallback, MPI_Bcast, ne_eq, h, not_false_eq_true, if_true,
      addObjectToCommit, ospSet1i, lookup_set]
    simp
  · intro h
    simp [displayCallback, MPI_Bcast, h]
  · intro spp'
    simp only [displayCallback, MPI_Bcast]
  · intro vs ranks hranks i j
    rw [hranks i, hranks j, runFrames_append]
    exact ⟨rfl, displayCallback_currentSpp renderer v _⟩
  · intro ps ranks hranks i
    rw [hranks i]
    simp only [displayCallback, MPI_Bcast, initialRankState, addObjectToCommit, ospSet1i]
    simp [lookup_set]

/-- Instance of `displayCallback_sync`: a rank in its initial state that receives `spp = 4`
sets the renderer's `spp` to 4 and queues the renderer (handle 7). -/
theorem displayCallback_sync_witness :
    (4 : Int) ≠ (initialRankState []).currentSpp ∧
    (displayCallback 7 4 (initialRankState [])).rendererParams.lookup "spp"
      = some (ParamValue.int 4) ∧
    (displayCallback 7 4 (initialRankState [])).objectsToCommit = [7] :=
  ⟨by decide, ((displayCallback_sync 7 4 (initialRankState [])).2.1 (by decide)).1,
    ((displayCallback_sync 7 4 (initialRankState [])).2.1 (by decide)).2.2.1⟩

/-! ## The bricks of `makeLocalSpheres` -/

theorem brickUpper_sub_brickLower (grid brickId : Vec3i) :
    (brickUpperOf grid brickId).x - (brickLowerOf grid brickId).x = 2 / (grid.x : ℚ) ∧
    (brickUpperOf grid brickId).y - (brickLowerOf grid brickId).y = 2 / (grid.y : ℚ) ∧
    (brickUpperOf grid brickId).z - (brickLowerOf grid brickId).z = 2 / (grid.z : ℚ) := by
  simp [brickUpperOf, brickLowerOf, brickSizeOf, Vec3f.add, Vec3f.sub, Vec3f.mul, Vec3f.div,
    Vec3f.splat, Vec3f.ofVec3i]

theorem computeGrid_eleven : computeGrid 11 = some ⟨11, 1, 1⟩ := by
  simp [computeGrid, computeGridLoop, computeDivisor, computeDivisorLoop, Nat.sqrt,
    Nat.sqrt.iter, Vec3i.mulAxis]

theorem makeLocalSpheres_eq {N : Nat} {g : Vec3i} (r : Nat) (rng : Nat → ℚ)
    (hg : computeGrid N = some g) :
    makeLocalSpheres r N rng = some
      { spheres := (List.range 10).map fun k =>
          ⟨(distX g (brickIdOf g r)).sample (rng (3 * k)),
           (distY g (brickIdOf g r)).sample (rng (3 * k + 1)),
           (distZ g (brickIdOf g r)).sample (rng (3 * k + 2))⟩
        radius := sphereRadius } := by
  simp [makeLocalSpheres, hg]

/-- Claim C7 at world size 11: whatever the generator draws and whatever the rank, the grid is
`(11, 1, 1)` and ten spheres of radius `1/10` are generated, while the rank's brick is only
`2/11` wide along `x`: no centre at all puts such a sphere inside the brick, so none of the
ten generated spheres lies inside it. -/
theorem makeLocalSpheres_eleven_outside (r : Nat) (rng : Nat → ℚ) :
    ∃ geom g, makeLocalSpheres r 11 rng = some geom ∧ computeGrid 11 = some g ∧
      geom.spheres.length = 10 ∧ geom.radius = 1 / 10 ∧
      (∀ c : Vec3f,
        ¬ sphereInBox (brickLowerOf g (brickIdOf g r)) (brickUpperOf g (brickIdOf g r)) c
          geom.radius) ∧
      (∀ c ∈ geom.spheres,
        ¬ sphereInBox (brickLowerOf g (brickIdOf g r)) (brickUpperOf g (brickIdOf g r)) c
          geom.radius) := by
  have hall : ∀ c : Vec3f, ¬ sphereInBox (brickLowerOf ⟨11, 1, 1⟩ (brickIdOf ⟨11, 1, 1⟩ r))
      (brickUpperOf ⟨11, 1, 1⟩ (brickIdOf ⟨11, 1, 1⟩ r)) c sphereRadius := by
    intro c hin
    obtain ⟨⟨h1, h2⟩, -, -⟩ := hin
    obtain ⟨sx, -, -⟩ := brickUpper_sub_brickLower ⟨11, 1, 1⟩ (brickIdOf ⟨11, 1, 1⟩ r)
    have hsx : (brickUpperOf ⟨11, 1, 1⟩ (brickIdOf ⟨11, 1, 1⟩ r)).x
        - (brickLowerOf ⟨11, 1, 1⟩ (brickIdOf ⟨11, 1, 1⟩ r)).x = 2 / 11 := by
      rw [sx]; norm_num
    simp only [sphereRadius] at h1 h2
    linarith
  exact ⟨_, _, makeLocalSpheres_eq r rng computeGrid_eleven, computeGrid_eleven, by simp, rfl,
    hall, fun c _ => hall c⟩

/-! ## The sampling intervals in binary32 -/

end Ospray
